import Mathlib

/-!
Verification of the skald change-capture and index-maintenance pipeline.

This file gives a shallow embedding, in Lean 4, of the parts of the skald
crate that the checked properties are about:

* the SQLite connection hooks installed by `SqliteConnectionHandler::attach_hooks`
  (src/pool/mod.rs, lines 51-105): the pre-update, update, commit and rollback
  callbacks and the per-connection pending buffer they share;
* the index-updater worker loop (src/pool/mod.rs, lines 108-170): message
  coalescing and the per-index batch application of upserts and deletes;
* the two row-to-JSON projectors (the closure in src/lib.rs, lines 142-163,
  and `QueryExt::query_to_json` in src/pool/sqlx.rs, lines 33-70);
* the settings round trip `set_settings` / `get_settings`
  (src/embedded_milli/mod.rs, lines 293-416);
* the LMDB map-size probe in `Instance::get_index`
  (src/embedded_milli/mod.rs, lines 98-119) and `Instance::get_milli_version`
  (lines 79-87).

Rust values are mapped to Lean values as follows: machine integers become
`Nat`/`Int` (no overflow is reachable in the modelled code paths), fallible or
panicking computations return `Option` (with `none` for a panic via `unwrap`),
maps that the source iterates in insertion order per key become association
lists, and external collaborators (SQLite itself, serde_json, the milli index
engine) appear as oracles or as idealized stores, each documented where it is
introduced.
-/

namespace Skald

/-- JSON values, modelling `serde_json::Value` (numbers are collapsed to `Int`;
none of the modelled code inspects numeric payloads). -/
inductive Json where
  | null
  | bool (b : Bool)
  | num (n : Int)
  | str (s : String)
  | arr (elems : List Json)
  | obj (fields : List (String × Json))

/-- The `TableUpdate` enum from src/lib.rs, lines 83-87: a pending operation is
either a delete carrying the captured primary key, or a deferred upsert
carrying the rowid and the projection SQL. -/
inductive TableUpdate where
  | delete (primary_key : String)
  | upsert (rowid : Int) (update_query : String)
deriving Repr, DecidableEq

/-- The value accessor handed to the pre-update hook for the row about to be
deleted (`PreUpdateOldValueAccessor`), modelled as the old row's column values. -/
def Accessor : Type := List (String × Json)

/-- The `PreUpdateCase` enum of the SQLite pre-update hook. Only the delete
case carries data the hooks use. -/
inductive PreUpdateCase where
  | insert
  | update
  | delete (old : Accessor)
  | unknown

/-- The SQLite `Action` delivered to the update hook. -/
inductive Action where
  | SQLITE_INSERT
  | SQLITE_UPDATE
  | SQLITE_DELETE
  | UNKNOWN
deriving Repr, DecidableEq

/-- `TableIndexSettings` from src/lib.rs, lines 45-50: one binding of a SQL
table to an index. -/
structure TableIndexSettings where
  index_name : String
  update_query : String
  primary_key_fn : Accessor → String

/-- The table-settings registry of `SqliteConnectionHandler`
(src/pool/mod.rs, line 20): a map from `(db_name, table_name)` to the list of
bindings, modelled as an association list. -/
def Registry : Type := List ((String × String) × List TableIndexSettings)

/-- `DashMap::get` on the registry: first entry with the given key, if any. -/
def lookupRegistry : Registry → String → String → Option (List TableIndexSettings)
  | [], _, _ => none
  | (k, v) :: rest, db, tbl => if k = (db, tbl) then some v else lookupRegistry rest db tbl

/-- The pending buffer: a map from index name to the ordered list of pending
operations, modelled as an association list (order within each key's list is
what the source relies on). -/
def Buffer : Type := List (String × List TableUpdate)

/-- `get_or_insert_entry` followed by `push` on the pending buffer: append one
operation to the named index's list, creating the entry if absent. -/
def bufPush : Buffer → String → TableUpdate → Buffer
  | [], name, u => [(name, [u])]
  | (k, v) :: rest, name, u =>
    if k = name then (k, v ++ [u]) :: rest else (k, v) :: bufPush rest name u

/-- `get_or_insert_entry` followed by `extend`: append a whole list of
operations to the named index's list, creating the entry if absent. -/
def bufExtend : Buffer → String → List TableUpdate → Buffer
  | [], name, us => [(name, us)]
  | (k, v) :: rest, name, us =>
    if k = name then (k, v ++ us) :: rest else (k, v) :: bufExtend rest name us

/-- State shared by the four hooks of one connection: the pending buffer, and
the sequence of change-set messages sent so far on the dispatch channel (the
channel is unbounded, so a send always succeeds and is modelled as an append). -/
structure HookState where
  pending : Buffer
  sent : List Buffer

/-- The pre-update hook closure from src/pool/mod.rs, lines 55-71. Only the
delete case acts: it looks the table up in the registry and calls `.unwrap()`
on the result, which panics when the table is unregistered (`none` here); on a
registered table it appends one `Delete` per binding, using the binding's
primary-key extractor on the old-row accessor. All other cases fall through
silently. -/
def preupdate_hook (registry : Registry) (db_name table_name : String)
    (c : PreUpdateCase) (st : HookState) : Option HookState :=
  match c with
  | .delete accessor =>
    match lookupRegistry registry db_name table_name with
    | none => none
    | some settingsList =>
      some { st with
        pending := settingsList.foldl
          (fun buf s => bufPush buf s.index_name (.delete (s.primary_key_fn accessor)))
          st.pending }
  | _ => some st

/-- The update hook closure from src/pool/mod.rs, lines 75-92. On
`SQLITE_INSERT` and `SQLITE_UPDATE` it looks the table up in the registry and
calls `.unwrap()` (panics, `none`, when unregistered); on a registered table it
appends one `Upsert {rowid, update_query}` per binding. Other actions fall
through silently. -/
def update_hook (registry : Registry) (action : Action) (db_name table_name : String)
    (rowid : Int) (st : HookState) : Option HookState :=
  match action with
  | .SQLITE_INSERT | .SQLITE_UPDATE =>
    match lookupRegistry registry db_name table_name with
    | none => none
    | some settingsList =>
      some { st with
        pending := settingsList.foldl
          (fun buf s => bufPush buf s.index_name (.upsert rowid s.update_query))
          st.pending }
  | _ => some st

/-- The return value of a rusqlite commit hook that lets the commit proceed:
rusqlite converts the commit into a rollback exactly when the hook returns
`true`, so `false` allows it. -/
def commitAllowValue : Bool := false

/-- The commit hook closure from src/pool/mod.rs, lines 96-100: take the whole
pending buffer out (leaving a fresh empty one), send it on the dispatch
channel, and return `false`. There is no emptiness check; an empty buffer is
sent like any other. -/
def commit_hook (st : HookState) : HookState × Bool :=
  ({ pending := [], sent := st.sent ++ [st.pending] }, false)

/-- The rollback hook closure from src/pool/mod.rs, lines 102-104: clear the
pending buffer in place. Nothing is sent on the channel. -/
def rollback_hook (st : HookState) : HookState :=
  { pending := [], sent := st.sent }

/-- A document held by the index, identified by its external id (the
stringified primary-key field) with an abstract JSON body. -/
structure Doc where
  pk : String
  body : Json

/-- The milli index engine is an external collaborator; `add_documents` upserts
one document by its primary key (spec section 4.2). Association-list upsert:
replace the first binding with the same key, else append. -/
def addDocument : List Doc → Doc → List Doc
  | [], d => [d]
  | e :: rest, d => if e.pk = d.pk then d :: rest else e :: addDocument rest d

/-- `EmbeddedMilli::add_documents` on a batch: upsert each document in order. -/
def addDocuments (st : List Doc) (docs : List Doc) : List Doc :=
  docs.foldl addDocument st

/-- `EmbeddedMilli::delete_documents`: delete by external id; ids not present
are silently skipped (spec section 4.2). -/
def deleteDocuments (st : List Doc) (keys : List String) : List Doc :=
  st.filter (fun d => decide (d.pk ∉ keys))

/-- Reading one document from the index state by external id. -/
def lookupDoc : List Doc → String → Option Doc
  | [], _ => none
  | d :: rest, k => if d.pk = k then some d else lookupDoc rest k

/-- The upsert projection of an operation list, as built by the worker's
`filter_map` (src/pool/mod.rs, lines 136-146): the `(rowid, update_query)`
pairs of the `Upsert` operations, in order. -/
def upserts (ops : List TableUpdate) : List (Int × String) :=
  ops.filterMap (fun u => match u with
    | .upsert r q => some (r, q)
    | _ => none)

/-- The delete-key projection of an operation list, as built by the worker's
second `filter_map` (src/pool/mod.rs, lines 155-164). -/
def deleteKeys (ops : List TableUpdate) : List String :=
  ops.filterMap (fun u => match u with
    | .delete k => some k
    | _ => none)

/-- One call the worker makes against the index engine while applying a batch. -/
inductive IndexCall where
  | beginWrite
  | addDocumentsCall (docs : List Doc)
  | deleteDocumentsCall (keys : List String)
  | commitTxn

/-- The per-index body of the worker loop (src/pool/mod.rs, lines 132-167),
instrumented with the trace of index-engine calls it makes. `db rowid query`
models `prepare_cached(query)` bound to `rowid` followed by `query_to_json`:
the projected documents of the rows the query returns against the worker's
snapshot of the database. The body opens one write transaction, runs
`add_documents` once per upsert, then one `delete_documents` with all the
delete keys, then commits. -/
def applyOpsWithTrace (db : Int → String → List Doc) (ops : List TableUpdate)
    (st : List Doc) : List Doc × List IndexCall :=
  let afterAdds := (upserts ops).foldl
    (fun acc rq =>
      let docs := db rq.1 rq.2
      (addDocuments acc.1 docs, acc.2 ++ [IndexCall.addDocumentsCall docs]))
    (st, [IndexCall.beginWrite])
  let keys := deleteKeys ops
  (deleteDocuments afterAdds.1 keys,
   afterAdds.2 ++ [IndexCall.deleteDocumentsCall keys, IndexCall.commitTxn])

/-- The index state after the worker applies one coalesced batch for one index. -/
def applyOps (db : Int → String → List Doc) (ops : List TableUpdate)
    (st : List Doc) : List Doc :=
  (applyOpsWithTrace db ops st).1

/-- All documents produced by the batch's upsert re-queries, in application
order. -/
def upsertDocs (db : Int → String → List Doc) (ops : List TableUpdate) : List Doc :=
  ((upserts ops).map (fun rq => db rq.1 rq.2)).flatten

/-- The last document with external id `k` in a list, if any (the binding that
survives upserting the list in order). -/
def lastDocFor (docs : List Doc) (k : String) : Option Doc :=
  docs.foldl (fun acc d => if d.pk = k then some d else acc) none

/-- First-some choice on options (used to state which binding survives). -/
def orElseO (a b : Option Doc) : Option Doc :=
  match a with
  | some x => some x
  | none => b

/-- Reading the operation list of one index out of a buffer (empty when the
index has no entry). -/
def opsFor (b : Buffer) (i : String) : List TableUpdate :=
  match b with
  | [] => []
  | (k, v) :: rest => if k = i then v else opsFor rest i

/-- One step of the worker's coalesce loop (src/pool/mod.rs, lines 120-123):
merge a received message into the accumulator by extending each index's
operation list. -/
def mergeMessage (acc msg : Buffer) : Buffer :=
  msg.foldl (fun a kv => bufExtend a kv.1 kv.2) acc

/-- The coalesce window (src/pool/mod.rs, lines 113-130): the first blocking
receive yields `first`; every message received before the 20 ms idle timeout
is merged into the accumulator in receive order. -/
def coalesce (first : Buffer) (rest : List Buffer) : Buffer :=
  rest.foldl mergeMessage first

/-- Whether an operation is an upsert for the given rowid. -/
def isUpsertFor (r : Int) (u : TableUpdate) : Bool :=
  match u with
  | .upsert r2 _ => decide (r2 = r)
  | _ => false

/-- How many upserts for rowid `r` an operation list contains; one
`add_documents` call is made per such operation. -/
def upsertCountFor (ops : List TableUpdate) (r : Int) : Nat :=
  (ops.filter (isUpsertFor r)).length

end Skald

namespace Skald

/-- The first character of a string; for the ASCII bytes the projectors test,
this coincides with the first byte of the UTF-8 encoding (a non-ASCII first
character begins with a byte at or above 0x80, which matches none of them). -/
def firstChar (s : String) : Option Char := s.data.head?

/-- The double-quote byte (0x22). -/
def dquoteChar : Char := Char.ofNat 34

/-- The opening-curly-brace byte (0x7B). -/
def lbraceChar : Char := Char.ofNat 123

/-- The opening-square-bracket byte (0x5B). -/
def lbrackChar : Char := Char.ofNat 91

/-- The single-quote byte (0x27). -/
def squoteChar : Char := Char.ofNat 39

/-- The TEXT-column branch of the row-projection closure in src/lib.rs, lines
142-161. `parse` is an oracle for `serde_json::Value::column_result` on the
text (serde_json is an external crate); `none` models a parse error. When the
first byte is none of double quote, open brace, open bracket, the raw text is
used verbatim as a JSON string; otherwise the text is parsed as JSON, falling
back to the raw string when parsing fails. -/
def libProjectText (parse : String → Option Json) (s : String) : Json :=
  if firstChar s ≠ some dquoteChar ∧ firstChar s ≠ some lbraceChar ∧
      firstChar s ≠ some lbrackChar then
    Json.str s
  else
    match parse s with
    | some v => v
    | none => Json.str s

/-- The TEXT-column branch of `QueryExt::query_to_json` in src/pool/sqlx.rs,
lines 39-57. When the text starts with open bracket, open brace, double quote,
or single quote, it is decoded as JSON and the result is `.unwrap()`ed: a parse
failure panics (`none`), with no raw-string fallback. Otherwise the raw text is
used as a JSON string. -/
def sqlxProjectText (parse : String → Option Json) (s : String) : Option Json :=
  if firstChar s = some lbrackChar ∨ firstChar s = some lbraceChar ∨
      firstChar s = some dquoteChar ∨ firstChar s = some squoteChar then
    parse s
  else
    some (Json.str s)

/-- A two-character text whose first byte is a single quote. -/
def squoteText : String := String.mk [squoteChar, Char.ofNat 97]

/-- The `Synonyms` record from src/embedded_milli/mod.rs, lines 38-42. -/
structure Synonyms where
  word : String
  synonyms : List String
deriving Repr, DecidableEq

/-- The `IndexSettings` record from src/embedded_milli/mod.rs, lines 44-60
(`u8` word lengths become `Nat`; no arithmetic is performed on them). -/
structure IndexSettings where
  primary_key : Option String
  searchable_fields : Option (List String)
  filterable_fields : List String
  sortable_fields : List String
  ranking_rules : List String
  stop_words : List String
  synonyms : List Synonyms
  typos_enabled : Bool
  min_word_size_for_one_typo : Option Nat
  min_word_size_for_two_typos : Option Nat
  disallow_typos_on_words : List String
  disallow_typos_on_fields : List String
deriving Repr, DecidableEq

/-- milli's ranking-rule type (`milli::Criterion`, an external crate), with the
constructors the wrapper code maps to and from strings. The source constructor
`Attribute` is named `attr` here because `attribute` is a Lean keyword. -/
inductive Criterion where
  | words
  | typo
  | proximity
  | attr
  | sort
  | exactness
  | asc (field : String)
  | desc (field : String)
deriving Repr, DecidableEq

/-- The rule-to-string mapping used by `get_settings`
(src/embedded_milli/mod.rs, lines 306-315). -/
def criterionToString : Criterion → String
  | .words => "words"
  | .typo => "typo"
  | .proximity => "proximity"
  | .attr => "attribute"
  | .sort => "sort"
  | .exactness => "exactness"
  | .asc f => f ++ ":asc"
  | .desc f => f ++ ":desc"

/-- Whether `s` ends with `t` (on the character lists). -/
def strEndsWith (s t : String) : Bool :=
  decide (s.data.drop (s.data.length - t.data.length) = t.data)

/-- `s` with its last `n` characters removed. -/
def strDropRight (s : String) (n : Nat) : String :=
  String.mk (s.data.take (s.data.length - n))

/-- Modelled from the spec: `milli::Criterion::from_str` is external to the
repository; the spec (section 3) fixes its grammar as the six tags `words`,
`typo`, `proximity`, `attribute`, `sort`, `exactness` or the patterns
`<field>:asc` / `<field>:desc`, anything else being an error. -/
def criterionFromStr (s : String) : Option Criterion :=
  if s = "words" then some .words
  else if s = "typo" then some .typo
  else if s = "proximity" then some .proximity
  else if s = "attribute" then some .attr
  else if s = "sort" then some .sort
  else if s = "exactness" then some .exactness
  else if strEndsWith s ":asc" then some (.asc (strDropRight s 4))
  else if strEndsWith s ":desc" then some (.desc (strDropRight s 5))
  else none

/-- The `collect::<Result<Vec<_>, _>>` over `Criterion::from_str` in
`set_settings` (src/embedded_milli/mod.rs, lines 392-399): parse every rule
string, failing as a whole if any fails. -/
def parseCriteria : List String → Option (List Criterion)
  | [] => some []
  | r :: rest =>
    match criterionFromStr r, parseCriteria rest with
    | some c, some cs => some (c :: cs)
    | _, _ => none

/-- Idealized persistent settings state of one milli index. The index engine
is an external collaborator (spec section 1): each `Settings` builder setter
is modelled as storing its argument verbatim and each index getter as reading
it back, which idealizes away the engine's own set normalization and ordering
(an idealization in the round-trip claim's favor). The two minimum word
lengths are plain values, as in milli, where the getters always return a
value (the engine holds defaults when none was set). -/
structure MilliSettingsStore where
  primaryKey : Option String
  searchableFields : Option (List String)
  filterableFields : List String
  sortableFields : List String
  criteria : List Criterion
  stopWords : List String
  synonymPairs : List (String × List String)
  authorizeTypos : Bool
  minWordLenOneTypo : Nat
  minWordLenTwoTypos : Nat
  exactWords : List String
  exactAttributes : List String
deriving Repr, DecidableEq

/-- A fresh index's settings store, with milli's default minimum word lengths
for one typo (5) and two typos (9) and default ranking rules. -/
def milliDefaultStore : MilliSettingsStore where
  primaryKey := none
  searchableFields := none
  filterableFields := []
  sortableFields := []
  criteria := [.words, .typo, .proximity, .attr, .sort, .exactness]
  stopWords := []
  synonymPairs := []
  authorizeTypos := true
  minWordLenOneTypo := 5
  minWordLenTwoTypos := 9
  exactWords := []
  exactAttributes := []

/-- `EmbeddedMilli::set_settings` (src/embedded_milli/mod.rs, lines 355-416)
over the idealized store. Every field is handed to a builder setter except the
two minimum word lengths, which are only set when the option is `Some` (lines
403-408): on `None` the stored value is left unchanged, with no reset call.
A ranking-rule parse failure surfaces as an error (`none`) before the update
executes. -/
def set_settings (st : MilliSettingsStore) (s : IndexSettings) :
    Option MilliSettingsStore :=
  match parseCriteria s.ranking_rules with
  | none => none
  | some crits =>
    some { primaryKey := s.primary_key
           searchableFields := s.searchable_fields
           filterableFields := s.filterable_fields
           sortableFields := s.sortable_fields
           criteria := crits
           stopWords := s.stop_words
           synonymPairs := s.synonyms.map (fun y => (y.word, y.synonyms))
           authorizeTypos := s.typos_enabled
           minWordLenOneTypo :=
             match s.min_word_size_for_one_typo with
             | some v => v
             | none => st.minWordLenOneTypo
           minWordLenTwoTypos :=
             match s.min_word_size_for_two_typos with
             | some v => v
             | none => st.minWordLenTwoTypos
           exactWords := s.disallow_typos_on_words
           exactAttributes := s.disallow_typos_on_fields }

/-- `EmbeddedMilli::get_settings` (src/embedded_milli/mod.rs, lines 293-353)
over the idealized store. Note lines 339-340: the two minimum word lengths are
unconditionally wrapped in `Some`. -/
def get_settings (st : MilliSettingsStore) : IndexSettings where
  primary_key := st.primaryKey
  searchable_fields := st.searchableFields
  filterable_fields := st.filterableFields
  sortable_fields := st.sortableFields
  ranking_rules := st.criteria.map criterionToString
  stop_words := st.stopWords
  synonyms := st.synonymPairs.map (fun p => Synonyms.mk p.1 p.2)
  typos_enabled := st.authorizeTypos
  min_word_size_for_one_typo := some st.minWordLenOneTypo
  min_word_size_for_two_typos := some st.minWordLenTwoTypos
  disallow_typos_on_words := st.exactWords
  disallow_typos_on_fields := st.exactAttributes

/-- A settings value with no minimum word lengths set. -/
def noTypoLimitSettings : IndexSettings where
  primary_key := none
  searchable_fields := none
  filterable_fields := []
  sortable_fields := []
  ranking_rules := []
  stop_words := []
  synonyms := []
  typos_enabled := true
  min_word_size_for_one_typo := none
  min_word_size_for_two_typos := none
  disallow_typos_on_words := []
  disallow_typos_on_fields := []

/-- Rust's `str::parse::<u32>`: an optional leading plus sign followed by at
least one ASCII digit, with values at or above 2^32 overflowing to an error;
anything else is an error (`none`). -/
def parseU32 (s : String) : Option Nat :=
  let ds :=
    match s.data with
    | c :: rest => if c = Char.ofNat 43 then rest else s.data
    | [] => []
  if ds = [] ∨ ¬ ds.all (fun c => c.isDigit) then none
  else
    let v := ds.foldl (fun a c => 10 * a + (c.toNat - 48)) 0
    if v < 4294967296 then some v else none

/-- The `CURRENT_MILLI_VERSION` constant (src/embedded_milli/mod.rs, line 62). -/
def CURRENT_MILLI_VERSION : Nat := 1

/-- `Instance::get_milli_version` (src/embedded_milli/mod.rs, lines 79-83).
The `milli_version` file's contents stand in as `Option String` (`none` when
the file is absent); both `fs::read_to_string(..).unwrap()` on an absent file
and `contents.parse().unwrap()` on unparseable contents panic, modelled as a
`none` result (as opposed to returning an error value or a default). -/
def get_milli_version (file : Option String) : Option Nat :=
  match file with
  | none => none
  | some contents =>
    match parseU32 contents with
    | none => none
    | some v => some v

/-- `Instance::needs_rebuilding` (src/embedded_milli/mod.rs, lines 85-87):
compares the version read by `get_milli_version` against the current one, and
therefore panics whenever `get_milli_version` does. -/
def needs_rebuilding (file : Option String) : Option Bool :=
  (get_milli_version file).map (fun v => decide (v < CURRENT_MILLI_VERSION))

/-- `MAX_POSSIBLE_SIZE` (src/embedded_milli/mod.rs, line 22). -/
def MAX_POSSIBLE_SIZE : Nat := 2000000000

/-- `MAX_OS_PAGE_SIZE` (src/embedded_milli/mod.rs, line 23): 16 MiB. -/
def MAX_OS_PAGE_SIZE : Nat := 16777216

/-- `MAP_SIZE_TRIES` (src/embedded_milli/mod.rs, line 27). -/
def MAP_SIZE_TRIES : Nat := 8

/-- `curr_max_map_size` at retry `k` (src/embedded_milli/mod.rs, lines
102-103): `(MAX_POSSIBLE_SIZE as f32 * 0.85f32.powi(k)) as usize`. The `f32`
arithmetic is idealized as exact arithmetic on 0.85 = 17/20 with the final
`as usize` as truncation; for the nine retry indices the loop can reach, the
accumulated `f32` rounding error is far below the distance of the quotient to
the next multiple of `MAX_OS_PAGE_SIZE`, so the attempted sizes agree. -/
def currMaxMapSize (k : Nat) : Nat := MAX_POSSIBLE_SIZE * 17 ^ k / 20 ^ k

/-- The map size attempted at retry `k` (src/embedded_milli/mod.rs, line 104):
`curr_max_map_size` rounded down to a multiple of `MAX_OS_PAGE_SIZE`. -/
def mapSizeAt (k : Nat) : Nat :=
  currMaxMapSize k - currMaxMapSize k % MAX_OS_PAGE_SIZE

/-- The probe loop of `Instance::get_index` (src/embedded_milli/mod.rs, lines
98-119), from a given retry counter with the number of attempts still allowed
as fuel. `openOk j` is the oracle for whether the heed environment opens at
retry `j`; success breaks out with the map size that worked, a failure with
retries left continues at `retry + 1`, and a failure with no retries left
surfaces the error (`none`). -/
def probeFrom (openOk : Nat → Bool) : Nat → Nat → Option Nat
  | _, 0 => none
  | retry, fuel + 1 =>
    if openOk retry then some (mapSizeAt retry)
    else probeFrom openOk (retry + 1) fuel

/-- The whole probe: the first attempt plus up to `MAP_SIZE_TRIES` retries. -/
def probeMapSize (openOk : Nat → Bool) : Option Nat :=
  probeFrom openOk 0 (MAP_SIZE_TRIES + 1)

section WorkerLemmas

private theorem foldl_adds_trace (db : Int → String → List Doc)
    (l : List (Int × String)) (st : List Doc) (tr : List IndexCall) :
    (l.foldl
      (fun acc rq =>
        (addDocuments acc.1 (db rq.1 rq.2), acc.2 ++ [IndexCall.addDocumentsCall (db rq.1 rq.2)]))
      (st, tr))
    = (l.foldl (fun s rq => addDocuments s (db rq.1 rq.2)) st,
       tr ++ l.map (fun rq => IndexCall.addDocumentsCall (db rq.1 rq.2))) := by
  induction l generalizing st tr with
  | nil => simp
  | cons x rest ih =>
    simp only [List.foldl_cons, List.map_cons]
    rw [ih]
    simp

private theorem lookupDoc_addDocument (st : List Doc) (d : Doc) (k : String) :
    lookupDoc (addDocument st d) k = if d.pk = k then some d else lookupDoc st k := by
  induction st with
  | nil => simp [addDocument, lookupDoc]
  | cons e rest ih =>
    by_cases he : e.pk = d.pk
    · simp only [addDocument, he, if_pos rfl, lookupDoc]
      by_cases hk : d.pk = k
      · simp [hk]
      · have : ¬ e.pk = k := by rw [he]; exact hk
        simp [hk, this, lookupDoc]
    · simp only [addDocument, if_neg he, lookupDoc]
      by_cases hek : e.pk = k
      · have : ¬ d.pk = k := by
          intro h
          exact he (by rw [hek, h])
        simp [hek, this]
      · simp [hek, ih]

private theorem foldl_lastStep (k : String) (docs : List Doc) (acc : Option Doc) :
    docs.foldl (fun a d => if d.pk = k then some d else a) acc
      = orElseO (docs.foldl (fun a d => if d.pk = k then some d else a) none) acc := by
  induction docs generalizing acc with
  | nil => cases acc <;> simp [orElseO]
  | cons d rest ih =>
    simp only [List.foldl_cons]
    rw [ih (if d.pk = k then some d else acc), ih (if d.pk = k then some d else none)]
    rcases h : rest.foldl (fun a d => if d.pk = k then some d else a) none with _ | x
    · by_cases hd : d.pk = k <;> simp [hd, orElseO, h]
    · simp [orElseO, h]

private theorem orElseO_assoc (a b c : Option Doc) :
    orElseO (orElseO a b) c = orElseO a (orElseO b c) := by
  cases a <;> simp [orElseO]

private theorem lastDocFor_cons (d : Doc) (rest : List Doc) (k : String) :
    lastDocFor (d :: rest) k
      = orElseO (lastDocFor rest k) (if d.pk = k then some d else none) := by
  simp only [lastDocFor, List.foldl_cons]
  exact foldl_lastStep k rest _

private theorem lastDocFor_append (xs ys : List Doc) (k : String) :
    lastDocFor (xs ++ ys) k = orElseO (lastDocFor ys k) (lastDocFor xs k) := by
  simp only [lastDocFor, List.foldl_append]
  exact foldl_lastStep k ys _

private theorem lookupDoc_addDocuments (st : List Doc) (docs : List Doc) (k : String) :
    lookupDoc (addDocuments st docs) k = orElseO (lastDocFor docs k) (lookupDoc st k) := by
  induction docs generalizing st with
  | nil => simp [addDocuments, lastDocFor, orElseO]
  | cons d rest ih =>
    simp only [addDocuments, List.foldl_cons] at ih ⊢
    rw [ih (addDocument st d), lookupDoc_addDocument, lastDocFor_cons, orElseO_assoc]
    by_cases hd : d.pk = k <;> simp [hd, orElseO]

private theorem lookupDoc_upsertFold (db : Int → String → List Doc)
    (l : List (Int × String)) (st : List Doc) (k : String) :
    lookupDoc (l.foldl (fun s rq => addDocuments s (db rq.1 rq.2)) st) k
      = orElseO (lastDocFor ((l.map (fun rq => db rq.1 rq.2)).flatten) k) (lookupDoc st k) := by
  induction l generalizing st with
  | nil => simp [lastDocFor, orElseO]
  | cons x rest ih =>
    simp only [List.foldl_cons, List.map_cons, List.flatten_cons]
    rw [ih, lookupDoc_addDocuments, lastDocFor_append, orElseO_assoc]

private theorem lookupDoc_deleteDocuments (st : List Doc) (keys : List String) (k : String) :
    lookupDoc (deleteDocuments st keys) k
      = if k ∈ keys then none else lookupDoc st k := by
  induction st with
  | nil => simp [deleteDocuments, lookupDoc]
  | cons d rest ih =>
    by_cases hm : d.pk ∈ keys
    · have hfilter : deleteDocuments (d :: rest) keys = deleteDocuments rest keys := by
        simp [deleteDocuments, List.filter_cons, hm]
      rw [hfilter, ih]
      by_cases hk : k ∈ keys
      · simp [hk]
      · have hd : ¬ d.pk = k := fun h => hk (h ▸ hm)
        simp [hk, lookupDoc, hd]
    · have hfilter : deleteDocuments (d :: rest) keys = d :: deleteDocuments rest keys := by
        simp [deleteDocuments, List.filter_cons, hm]
      rw [hfilter]
      by_cases hk : d.pk = k
      · subst hk
        simp [lookupDoc, hm]
      · simp [lookupDoc, hk, ih]

private theorem mem_deleteKeys (ops : List TableUpdate) (k : String) :
    k ∈ deleteKeys ops ↔ TableUpdate.delete k ∈ ops := by
  simp only [deleteKeys, List.mem_filterMap]
  constructor
  · rintro ⟨u, hu, hm⟩
    cases u with
    | delete k2 => simp at hm; rwa [hm] at hu
    | upsert r q => simp at hm
  · intro h
    exact ⟨TableUpdate.delete k, h, rfl⟩

private theorem upsertCountFor_append (xs ys : List TableUpdate) (r : Int) :
    upsertCountFor (xs ++ ys) r = upsertCountFor xs r + upsertCountFor ys r := by
  simp [upsertCountFor, List.filter_append]

private theorem upsertCountFor_flatten (rest : List (List TableUpdate)) (r : Int) :
    upsertCountFor rest.flatten r = (rest.map (fun o => upsertCountFor o r)).sum := by
  induction rest with
  | nil => simp [upsertCountFor]
  | cons o rest ih =>
    simp only [List.flatten_cons, List.map_cons, List.sum_cons]
    rw [upsertCountFor_append, ih]

private theorem coalesce_single_key (i : String) (a : List TableUpdate)
    (rest : List (List TableUpdate)) :
    coalesce [(i, a)] (rest.map (fun o => [(i, o)])) = [(i, a ++ rest.flatten)] := by
  induction rest generalizing a with
  | nil => simp [coalesce]
  | cons o rest ih =>
    simp only [List.map_cons, coalesce, List.foldl_cons]
    have hm : mergeMessage [(i, a)] [(i, o)] = [(i, a ++ o)] := by
      simp [mergeMessage, bufExtend]
    rw [hm]
    have := ih (a ++ o)
    simp only [coalesce] at this
    rw [this]
    simp [List.flatten_cons, List.append_assoc]

end WorkerLemmas

/-- Claim C5: for every entry of the worker's coalesced accumulator, the worker
opens exactly one write transaction, first runs `add_documents` once per
`Upsert` operation in order, each on the documents projected from the rows the
cached prepared `update_query` returns for that rowid, then runs a single
`delete_documents` collecting all `Delete` operations' primary keys, and then
commits that write transaction. -/
theorem worker_batch_call_trace (db : Int → String → List Doc)
    (ops : List TableUpdate) (st : List Doc) :
    (applyOpsWithTrace db ops st).2 =
      IndexCall.beginWrite ::
        ((upserts ops).map (fun rq => IndexCall.addDocumentsCall (db rq.1 rq.2)) ++
          [IndexCall.deleteDocumentsCall (deleteKeys ops), IndexCall.commitTxn]) := by
  simp only [applyOpsWithTrace]
  rw [foldl_adds_trace]
  simp

/-- Claim C1 (amended): within one coalesced batch, a `Delete` always wins over
upserts regardless of position, because the worker applies all upserts first
and all deletes last. After the batch is applied, external id `k` is absent
whenever some `Delete {k}` occurs in the operation list (in particular when the
delete is last); when no `Delete {k}` occurs, `k` is bound to the last document
that an upsert re-query produced for it, falling back to the prior index state. -/
theorem delete_always_wins_in_batch (db : Int → String → List Doc)
    (ops : List TableUpdate) (st : List Doc) (k : String) :
    (TableUpdate.delete k ∈ ops → lookupDoc (applyOps db ops st) k = none) ∧
    (TableUpdate.delete k ∉ ops →
      lookupDoc (applyOps db ops st) k
        = orElseO (lastDocFor (upsertDocs db ops) k) (lookupDoc st k)) := by
  have hform : lookupDoc (applyOps db ops st) k
      = if k ∈ deleteKeys ops then none
        else orElseO (lastDocFor (upsertDocs db ops) k) (lookupDoc st k) := by
    simp only [applyOps, applyOpsWithTrace]
    rw [foldl_adds_trace]
    simp only [upsertDocs]
    rw [lookupDoc_deleteDocuments, lookupDoc_upsertFold]
  constructor
  · intro hmem
    rw [hform, if_pos ((mem_deleteKeys ops k).mpr hmem)]
  · intro hmem
    rw [hform, if_neg (fun h => hmem ((mem_deleteKeys ops k).mp h))]

/-- Claim C1, witness: concrete instances of both halves of
`delete_always_wins_in_batch`. A batch insert-then-delete on rowid 1 leaves key
k absent, and a batch with no delete leaves the final upsert document present. -/
theorem delete_always_wins_in_batch_witness :
    lookupDoc (applyOps (fun _ _ => [Doc.mk "k" (Json.num 1)])
      [TableUpdate.upsert 1 "q", TableUpdate.delete "k"] []) "k" = none ∧
    lookupDoc (applyOps (fun _ _ => [Doc.mk "k" (Json.num 1)])
      [TableUpdate.upsert 1 "q"] []) "k"
      = orElseO (lastDocFor (upsertDocs (fun _ _ => [Doc.mk "k" (Json.num 1)])
          [TableUpdate.upsert 1 "q"]) "k") (lookupDoc [] "k") :=
  ⟨(delete_always_wins_in_batch _ _ _ _).1 (by simp),
   (delete_always_wins_in_batch _ _ _ _).2 (by simp)⟩

/-- Claim C1, counterexample: mixed operations on rowid 1 whose last operation
is an upsert (the re-created row projects to the document with key k), yet
after the worker applies the batch the index does not contain k — the batch's
delete wins even though it is not last, refuting the claim that the final
update's document is present whenever an update is last. -/
theorem update_last_still_deleted :
    ([TableUpdate.upsert 1 "q", TableUpdate.delete "k",
        TableUpdate.upsert 1 "q"].getLast? = some (TableUpdate.upsert 1 "q")) ∧
    lookupDoc (applyOps (fun _ _ => [Doc.mk "k" (Json.num 42)])
      [TableUpdate.upsert 1 "q", TableUpdate.delete "k",
        TableUpdate.upsert 1 "q"] []) "k" = none := by
  constructor
  · rfl
  · simp [applyOps, applyOpsWithTrace, upserts, deleteKeys, List.filterMap,
      addDocuments, addDocument, deleteDocuments, lookupDoc]

/-- Claim C6 (amended): when the same row is updated N times within one
coalesce window, the N change-set messages are merged into a single batch for
the index — one entry of the accumulator, hence one write transaction — but the
merged operation list keeps one upsert per update event: the batch contains
exactly the sum of the incoming upsert counts for that rowid, not at most one. -/
theorem coalesce_keeps_every_upsert (i : String) (first : List TableUpdate)
    (rest : List (List TableUpdate)) (r : Int) :
    upsertCountFor (opsFor (coalesce [(i, first)] (rest.map (fun o => [(i, o)]))) i) r
      = upsertCountFor first r + (rest.map (fun o => upsertCountFor o r)).sum := by
  rw [coalesce_single_key]
  have hops : opsFor [(i, first ++ rest.flatten)] i = first ++ rest.flatten := by
    simp [opsFor]
  rw [hops, upsertCountFor_append, upsertCountFor_flatten]

/-- Claim C6, counterexample: two updates of rowid 1 within one window are
merged into one coalesced batch that contains two upserts for that rowid, not
at most one — the merge appends operation lists and never deduplicates. -/
theorem coalesced_batch_not_deduped :
    ¬ upsertCountFor
        (opsFor (coalesce [("idx", [TableUpdate.upsert 1 "q"])]
          [[("idx", [TableUpdate.upsert 1 "q"])]]) "idx") 1 ≤ 1 := by
  decide

/-- Claim C7 (amended): the lib.rs projector follows the stated policy — in
particular it falls back to the raw string whenever parsing fails — and the
sqlx projector agrees with it exactly on text that does not start with a
single quote and, when the first byte is a trigger byte, parses as JSON. (The
sqlx projector additionally treats a leading single quote as a JSON trigger,
and panics instead of falling back when parsing fails.) -/
theorem projector_policy_agreement (parse : String → Option Json) (s : String) :
    (parse s = none → libProjectText parse s = Json.str s) ∧
    (firstChar s ≠ some squoteChar →
      ((firstChar s = some dquoteChar ∨ firstChar s = some lbraceChar ∨
          firstChar s = some lbrackChar) → (parse s).isSome) →
      sqlxProjectText parse s = some (libProjectText parse s)) := by
  constructor
  · intro hp
    unfold libProjectText
    split
    · rfl
    · rw [hp]
  · intro hq htrig
    by_cases ht : firstChar s = some dquoteChar ∨ firstChar s = some lbraceChar ∨
        firstChar s = some lbrackChar
    · rcases Option.isSome_iff_exists.mp (htrig ht) with ⟨v, hv⟩
      have hlib : libProjectText parse s = v := by
        unfold libProjectText
        split
        · rename_i hcond
          exact absurd ht (by tauto)
        · rw [hv]
      have hsq : sqlxProjectText parse s = parse s := by
        unfold sqlxProjectText
        split
        · rfl
        · rename_i hcond
          exact absurd ht (by tauto)
      rw [hsq, hv, hlib]
    · have hlib : libProjectText parse s = Json.str s := by
        unfold libProjectText
        split
        · rfl
        · rename_i hcond
          exact absurd (by tauto : firstChar s = some dquoteChar ∨
            firstChar s = some lbraceChar ∨ firstChar s = some lbrackChar) ht
      have hsq : sqlxProjectText parse s = some (Json.str s) := by
        unfold sqlxProjectText
        split
        · rename_i hcond
          exact absurd (by tauto : firstChar s = some dquoteChar ∨
            firstChar s = some lbraceChar ∨ firstChar s = some lbrackChar) ht
        · rfl
      rw [hsq, hlib]

/-- Claim C7, witness: on plain text with no trigger byte, the lib projector
returns the raw string and the two projectors agree. -/
theorem projector_policy_agreement_witness :
    libProjectText (fun _ => none) "plain" = Json.str "plain" ∧
    sqlxProjectText (fun _ => none) "plain"
      = some (libProjectText (fun _ => none) "plain") :=
  ⟨(projector_policy_agreement (fun _ => none) "plain").1 rfl,
   (projector_policy_agreement (fun _ => none) "plain").2 (by decide)
     (fun h => absurd h (by decide))⟩

/-- Claim C7, counterexample: the projection policy is not the same in the two
projector implementations. On text whose first byte is a single quote (which
serde_json always rejects as a JSON document, so the parse oracle returns
`none`), the lib.rs projector returns the raw text as a JSON string, while the
sqlx projector attempts a JSON parse and panics on the failure. -/
theorem projectors_disagree_on_single_quote :
    libProjectText (fun _ => none) squoteText = Json.str squoteText ∧
    sqlxProjectText (fun _ => none) squoteText = none ∧
    sqlxProjectText (fun _ => none) squoteText
      ≠ some (libProjectText (fun _ => none) squoteText) := by
  refine ⟨rfl, rfl, ?_⟩
  intro h
  exact Option.noConfusion h

section SettingsLemmas

private theorem stringDataExt (a b : String) (h : a.data = b.data) : a = b := by
  cases a
  cases b
  exact congrArg String.mk h

private theorem strEndsWith_spec (s t : String) (h : strEndsWith s t = true) :
    strDropRight s t.data.length ++ t = s := by
  have h2 : s.data.drop (s.data.length - t.data.length) = t.data := by
    simpa [strEndsWith] using h
  apply stringDataExt
  have hd : (strDropRight s t.data.length ++ t).data
      = s.data.take (s.data.length - t.data.length) ++ t.data := by
    simp [strDropRight]
  rw [hd]
  generalize s.data.length - t.data.length = n at h2 ⊢
  rw [← h2]
  exact List.take_append_drop _ _

private theorem map_synonyms_eta (l : List Synonyms) :
    List.map (fun p => Synonyms.mk p.1 p.2) (List.map (fun y => (y.word, y.synonyms)) l)
      = l := by
  induction l with
  | nil => rfl
  | cons a t iht => rw [List.map_cons, List.map_cons, iht]

private theorem criterion_roundtrip (s : String) (c : Criterion)
    (h : criterionFromStr s = some c) : criterionToString c = s := by
  unfold criterionFromStr at h
  split_ifs at h with h1 h2 h3 h4 h5 h6 h7 h8
  · cases h; rw [criterionToString, h1]
  · cases h; rw [criterionToString, h2]
  · cases h; rw [criterionToString, h3]
  · cases h; rw [criterionToString, h4]
  · cases h; rw [criterionToString, h5]
  · cases h; rw [criterionToString, h6]
  · cases h
    have hlen : (":asc" : String).data.length = 4 := rfl
    have := strEndsWith_spec s ":asc" h7
    rw [hlen] at this
    rw [criterionToString]
    exact this
  · cases h
    have hlen : (":desc" : String).data.length = 5 := rfl
    have := strEndsWith_spec s ":desc" h8
    rw [hlen] at this
    rw [criterionToString]
    exact this

private theorem parseCriteria_roundtrip (rules : List String) (crits : List Criterion)
    (h : parseCriteria rules = some crits) :
    crits.map criterionToString = rules := by
  induction rules generalizing crits with
  | nil =>
    cases h
    rfl
  | cons r rest ih =>
    unfold parseCriteria at h
    cases hr : criterionFromStr r with
    | none => rw [hr] at h; cases h
    | some c =>
      cases hrest : parseCriteria rest with
      | none => rw [hr, hrest] at h; cases h
      | some cs =>
        rw [hr, hrest] at h
        cases h
        simp only [List.map_cons]
        rw [criterion_roundtrip r c hr, ih cs hrest]

end SettingsLemmas

/-- Claim C8 (amended): `get_settings` after `set_settings` returns the
settings value unchanged — all fields, including `None` for the primary key
and the searchable fields, with the orderings of searchable fields and ranking
rules preserved — provided both optional minimum word lengths are `Some` and
every ranking rule is well-formed. (When a minimum word length is `None`,
`set_settings` leaves the stored value unchanged and `get_settings` wraps the
stored value in `Some`, so the round trip cannot return `None` there.) -/
theorem settings_roundtrip (st : MilliSettingsStore) (s : IndexSettings)
    (n1 n2 : Nat)
    (h1 : s.min_word_size_for_one_typo = some n1)
    (h2 : s.min_word_size_for_two_typos = some n2)
    (crits : List Criterion)
    (hc : parseCriteria s.ranking_rules = some crits) :
    (set_settings st s).map get_settings = some s := by
  unfold set_settings
  rw [hc]
  simp only [Option.map_some']
  congr 1
  cases s with
  | mk pk sf ff stf rr sw sy te m1 m2 dw df =>
    dsimp only at h1 h2 hc ⊢
    subst h1
    subst h2
    unfold get_settings
    simp only [IndexSettings.mk.injEq, eq_self_iff_true, true_and, and_true]
    exact ⟨parseCriteria_roundtrip rr crits hc, map_synonyms_eta sy⟩

/-- Claim C8, witness: a settings value with both minimum word lengths set and
well-formed ranking rules round-trips through the idealized store. -/
theorem settings_roundtrip_witness :
    (set_settings milliDefaultStore
      { primary_key := some "id"
        searchable_fields := some ["title", "body"]
        filterable_fields := ["genre"]
        sortable_fields := ["year"]
        ranking_rules := ["words", "title:asc"]
        stop_words := ["the"]
        synonyms := [Synonyms.mk "car" ["auto"]]
        typos_enabled := false
        min_word_size_for_one_typo := some 3
        min_word_size_for_two_typos := some 7
        disallow_typos_on_words := ["exact"]
        disallow_typos_on_fields := ["id"] }).map get_settings
    = some
      { primary_key := some "id"
        searchable_fields := some ["title", "body"]
        filterable_fields := ["genre"]
        sortable_fields := ["year"]
        ranking_rules := ["words", "title:asc"]
        stop_words := ["the"]
        synonyms := [Synonyms.mk "car" ["auto"]]
        typos_enabled := false
        min_word_size_for_one_typo := some 3
        min_word_size_for_two_typos := some 7
        disallow_typos_on_words := ["exact"]
        disallow_typos_on_fields := ["id"] } :=
  settings_roundtrip milliDefaultStore _ 3 7 rfl rfl [Criterion.words, Criterion.asc "title"]
    (by decide)

/-- Claim C8, counterexample: the round trip fails for a settings value whose
minimum word lengths are `None`. `set_settings` makes no builder call for them
(src/embedded_milli/mod.rs, lines 403-408), so the store keeps its defaults,
and `get_settings` returns them wrapped in `Some` (lines 339-340): the result
differs from the input on exactly those fields, refuting the claim that every
`IndexSettings` value round-trips. -/
theorem settings_roundtrip_fails_on_none :
    (set_settings milliDefaultStore noTypoLimitSettings).map get_settings
      = some { noTypoLimitSettings with
                 ranking_rules := []
                 min_word_size_for_one_typo := some 5
                 min_word_size_for_two_typos := some 9 } ∧
    (set_settings milliDefaultStore noTypoLimitSettings).map get_settings
      ≠ some noTypoLimitSettings := by
  constructor
  · rfl
  · decide

/-- Claim C3: for every rolled-back SQL transaction, the rollback hook clears
the pending buffer in place and sends nothing on the dispatch channel, so no
pending operation from the rolled-back transaction reaches the worker. -/
theorem rollback_clears_and_sends_nothing (st : HookState) :
    (rollback_hook st).pending = [] ∧ (rollback_hook st).sent = st.sent :=
  ⟨rfl, rfl⟩

/-- Claim C4: on every SQL commit, the commit hook atomically replaces the
pending buffer with a fresh empty buffer, sends the entire previous contents
on the dispatch channel, and returns the value that allows the commit to
proceed; this holds for every commit, including one whose buffer is empty. -/
theorem commit_swaps_sends_and_allows (st : HookState) :
    (commit_hook st).1.pending = [] ∧
    (commit_hook st).1.sent = st.sent ++ [st.pending] ∧
    (commit_hook st).2 = commitAllowValue :=
  ⟨rfl, rfl, rfl⟩

/-- Claim C2 (code bug): the hooks do not short-circuit silently on an
unregistered table. With an empty registry, an INSERT seen by the update hook
and a DELETE seen by the pre-update hook both hit `.unwrap()` on a failed
registry lookup and panic (modelled as `none`), instead of leaving the buffer
unchanged and returning. -/
theorem hooks_panic_on_unregistered_table :
    update_hook [] .SQLITE_INSERT "main" "unbound" 1 ⟨[], []⟩ = none ∧
    preupdate_hook [] "main" "unbound" (.delete []) ⟨[], []⟩ = none :=
  ⟨rfl, rfl⟩

/-- Claim C10: `get_milli_version`, and therefore `needs_rebuilding`, panics
(modelled as `none`) whenever the `milli_version` file is absent — as it is in
a freshly created instance directory, since nothing in the crate writes it —
or its contents fail to parse as an integer, rather than returning an error
value or a default. -/
theorem milli_version_panics (file : Option String)
    (h : file = none ∨ ∀ s, file = some s → parseU32 s = none) :
    get_milli_version file = none ∧ needs_rebuilding file = none := by
  cases file with
  | none => exact ⟨rfl, rfl⟩
  | some contents =>
    rcases h with h | h
    · cases h
    · have hp := h contents rfl
      refine ⟨?_, ?_⟩
      · simp [get_milli_version, hp]
      · simp [needs_rebuilding, get_milli_version, hp]

/-- Claim C10, witness: the absent file (a fresh instance directory) and the
unparseable contents "v1" both make the version read and the rebuild check
panic. -/
theorem milli_version_panics_witness :
    (get_milli_version none = none ∧ needs_rebuilding none = none) ∧
    (get_milli_version (some "v1") = none ∧ needs_rebuilding (some "v1") = none) :=
  ⟨milli_version_panics none (Or.inl rfl),
   milli_version_panics (some "v1")
     (Or.inr (fun s hs => by cases hs; rfl))⟩

/-- Claim C9: under the exact-arithmetic reading of the `f32` computation, the
map size attempted at retry `k` is 2,000,000,000 scaled by 0.85 to the power
`k` (floored) and rounded down to a multiple of 16,777,216; hence every
attempted size is a multiple of 16 MiB and at most 2,000,000,000 bytes, the
pre-rounding size is exactly the geometric sequence with ratio 0.85, and when
the environment fails to open at the first attempt and all 8 retries, the
probe surfaces the open error to the caller. -/
theorem map_size_probe (k : Nat) (openOk : Nat → Bool)
    (hfail : ∀ j, openOk j = false) :
    mapSizeAt k % MAX_OS_PAGE_SIZE = 0 ∧
    mapSizeAt k ≤ MAX_POSSIBLE_SIZE ∧
    mapSizeAt k
      = MAX_OS_PAGE_SIZE * (MAX_POSSIBLE_SIZE * 17 ^ k / (20 ^ k * MAX_OS_PAGE_SIZE)) ∧
    currMaxMapSize k = Nat.floor ((2000000000 : ℚ) * (17 / 20) ^ k) ∧
    probeMapSize openOk = none := by
  have hsub : currMaxMapSize k - currMaxMapSize k % MAX_OS_PAGE_SIZE
      = MAX_OS_PAGE_SIZE * (currMaxMapSize k / MAX_OS_PAGE_SIZE) := by
    have := Nat.div_add_mod (currMaxMapSize k) MAX_OS_PAGE_SIZE
    omega
  refine ⟨?_, ?_, ?_, ?_, ?_⟩
  · rw [mapSizeAt, hsub]
    exact Nat.mul_mod_right _ _
  · calc mapSizeAt k ≤ currMaxMapSize k := Nat.sub_le _ _
      _ ≤ MAX_POSSIBLE_SIZE * 20 ^ k / 20 ^ k := by
          apply Nat.div_le_div_right
          exact Nat.mul_le_mul_left _ (Nat.pow_le_pow_left (by norm_num) k)
      _ = MAX_POSSIBLE_SIZE := Nat.mul_div_cancel _ (Nat.pos_pow_of_pos k (by norm_num))
  · rw [mapSizeAt, hsub, currMaxMapSize, Nat.div_div_eq_div_mul]
  · rw [currMaxMapSize]
    rw [show ((2000000000 : ℚ) * (17 / 20) ^ k)
        = ((MAX_POSSIBLE_SIZE * 17 ^ k : ℕ) : ℚ) / ((20 ^ k : ℕ) : ℚ) by
      rw [MAX_POSSIBLE_SIZE, div_pow]; push_cast; ring]
    rw [Nat.floor_div_nat, Nat.floor_natCast]
  · simp [probeMapSize, MAP_SIZE_TRIES, probeFrom, hfail]

/-- Claim C9, witness: at retry 3 with an environment that never opens, all
components of the map-size property hold concretely. -/
theorem map_size_probe_witness :
    mapSizeAt 3 % MAX_OS_PAGE_SIZE = 0 ∧
    mapSizeAt 3 ≤ MAX_POSSIBLE_SIZE ∧
    mapSizeAt 3
      = MAX_OS_PAGE_SIZE * (MAX_POSSIBLE_SIZE * 17 ^ 3 / (20 ^ 3 * MAX_OS_PAGE_SIZE)) ∧
    currMaxMapSize 3 = Nat.floor ((2000000000 : ℚ) * (17 / 20) ^ 3) ∧
    probeMapSize (fun _ => false) = none :=
  map_size_probe 3 (fun _ => false) (fun _ => rfl)

end Skald
